import Mathlib

/-!
Verification of the Streak-API gamification engine and job/application
lifecycle against its natural-language specification.

The definitions below are a shallow embedding of the TypeScript source:

* `GamificationService` (updateStreak, getDaysDifference, checkAchievements,
  getPointsForActivity, recordActivity, calculateLevel,
  getUserGamificationStats);
* `ApplicationService` (createApplication, acceptApplication,
  withdrawApplication, deleteApplication) together with the `Job` and
  `Application` documents and the mongoose `$inc` counter updates;
* `AuthService.login` and `JobService.createJob`, lifted to a system state
  that carries the activity-event ledger.

Timestamps are modelled as `Int` milliseconds since the epoch, ids as `Nat`,
and the string enums of the source (`JobStatus`, `ApplicationStatus`,
`ActivityType`, criteria types) as the corresponding string literals.
Fallible service methods return `Except`.
-/

namespace StreakAPI

/-! ### Gamification data model (user.model.ts, streak.model.ts) -/

/-- The `gamification` sub-document of the User schema. -/
structure Gamification where
  currentStreak : Nat
  longestStreak : Nat
  lastActivityDate : Option Int
  totalPoints : Nat
  level : Nat
  achievements : List Nat
deriving DecidableEq

/-- The `stats` sub-document of the User schema (field used by the evaluator). -/
structure UserStats where
  jobsCompleted : Nat
deriving DecidableEq

/-- The slice of a User document read and written by `GamificationService`. -/
structure UserState where
  gamification : Gamification
  stats : UserStats
deriving DecidableEq

/-- The `criteria` sub-document of the Achievement schema. -/
structure Criteria where
  type : String
  target : Nat
deriving DecidableEq

/-- Achievement catalog entry (achievement.model.ts). -/
structure Achievement where
  id : Nat
  criteria : Criteria
  points : Nat
deriving DecidableEq

/-- ActivityEvent document (streak.model.ts). -/
structure ActivityEvent where
  userId : Nat
  type : String
  points : Nat
  date : Int
deriving DecidableEq

/-- Values of `Object.values(ActivityType)`: the enum the ActivityEvent schema allows
for its `type` field. -/
def activityTypeValues : List String :=
  ["login", "job_posted", "application_sent", "application_accepted",
   "job_completed", "profile_updated"]

/-- ActivityEventSchema validation of the `type` field:
`enum: Object.values(ActivityType)`; `ActivityEvent.create` rejects a
document whose `type` is outside the enum. -/
def activityEventTypeValid (e : ActivityEvent) : Bool :=
  e.type ∈ activityTypeValues

/-! ### GamificationService -/

/-- Embeds `GamificationService.getPointsForActivity`: `pointsMap[type] || 0`. -/
def getPointsForActivity (type : String) : Nat :=
  if type = "login" then 5
  else if type = "job_posted" then 10
  else if type = "application_sent" then 15
  else if type = "application_accepted" then 25
  else if type = "job_completed" then 50
  else if type = "profile_updated" then 5
  else 0

/-- Embeds `GamificationService.getDaysDifference`:
`Math.floor(Math.abs(date2.getTime() - date1.getTime()) / (1000*60*60*24))`. -/
def getDaysDifference (date1 date2 : Int) : Nat :=
  (date2 - date1).natAbs / (1000 * 60 * 60 * 24)

/-- Embeds `GamificationService.updateStreak` on the gamification sub-document. -/
def updateStreak (g : Gamification) (now : Int) : Gamification :=
  match g.lastActivityDate with
  | none =>
      { g with currentStreak := 1, longestStreak := 1, lastActivityDate := some now }
  | some lastActivity =>
      let daysSinceLastActivity := getDaysDifference lastActivity now
      if daysSinceLastActivity = 0 then g
      else if daysSinceLastActivity = 1 then
        let cs := g.currentStreak + 1
        { g with
          currentStreak := cs,
          longestStreak := if cs > g.longestStreak then cs else g.longestStreak,
          lastActivityDate := some now }
      else
        { g with currentStreak := 1, lastActivityDate := some now }

/-- Criteria test of `GamificationService.checkAchievements`: the `switch` on
`achievement.criteria.type`; unknown types leave `achieved = false`. -/
def achievementMet (user : UserState) (a : Achievement) : Bool :=
  if a.criteria.type = "streak_days" then
    a.criteria.target ≤ user.gamification.currentStreak
  else if a.criteria.type = "jobs_completed" then
    a.criteria.target ≤ user.stats.jobsCompleted
  else if a.criteria.type = "total_points" then
    a.criteria.target ≤ user.gamification.totalPoints
  else false

/-- One iteration of the `for (const achievement of achievements)` loop of
`checkAchievements`: skip when already owned, else on success push the id and
add the bonus points. -/
def checkAchievementsStep (user : UserState) (a : Achievement) : UserState :=
  if a.id ∈ user.gamification.achievements then user
  else if achievementMet user a then
    { user with
      gamification := { user.gamification with
        achievements := user.gamification.achievements ++ [a.id],
        totalPoints := user.gamification.totalPoints + a.points } }
  else user

/-- Embeds `GamificationService.checkAchievements`: a single forward pass over the
active-achievement catalog, mutating the user state live. -/
def checkAchievements (activeAchievements : List Achievement) (user : UserState) : UserState :=
  activeAchievements.foldl checkAchievementsStep user

/-- Embeds `GamificationService.recordActivity` on a found user: create the ledger
event (validated by the ActivityEvent schema), add the activity points, run
`updateStreak`, then `checkAchievements`. -/
def recordActivity (activeAchievements : List Achievement) (user : UserState)
    (ledger : List ActivityEvent) (userId : Nat) (type : String) (now : Int) :
    Except String (UserState × List ActivityEvent) :=
  let points := getPointsForActivity type
  let event : ActivityEvent := { userId := userId, type := type, points := points, date := now }
  if activityEventTypeValid event = false then
    Except.error "ValidationError"
  else
    let user1 : UserState :=
      { user with gamification := { user.gamification with
          totalPoints := user.gamification.totalPoints + points } }
    let user2 : UserState := { user1 with gamification := updateStreak user1.gamification now }
    let user3 : UserState := checkAchievements activeAchievements user2
    Except.ok (user3, ledger ++ [event])

/-- Step 4 of `recordActivity` in isolation:
`user.gamification.totalPoints += points`. -/
def pointsApplied (u : UserState) (p : Nat) : UserState :=
  { u with gamification := { u.gamification with
      totalPoints := u.gamification.totalPoints + p } }

/-- Step 5 of `recordActivity` in isolation: `updateStreak` applied to the
user's gamification sub-document. -/
def streakApplied (u : UserState) (now : Int) : UserState :=
  { u with gamification := updateStreak u.gamification now }

/-- Embeds `GamificationService.calculateLevel`: `Math.floor(totalPoints / 100) + 1`. -/
def calculateLevel (totalPoints : Nat) : Nat :=
  totalPoints / 100 + 1

/-- Scalar part of the `getUserGamificationStats` response. -/
structure GamificationStatsView where
  level : Nat
  totalPoints : Nat
  currentStreak : Nat
  longestStreak : Nat
deriving DecidableEq

/-- Embeds `GamificationService.getUserGamificationStats` on a found user: the level
is recomputed from `totalPoints`, not read from the stored field. -/
def getUserGamificationStats (user : UserState) : GamificationStatsView :=
  { level := calculateLevel user.gamification.totalPoints,
    totalPoints := user.gamification.totalPoints,
    currentStreak := user.gamification.currentStreak,
    longestStreak := user.gamification.longestStreak }

/-! ### Job / Application data model (job.model.ts, application.model.ts) -/

/-- The slice of a Job document used by the application lifecycle:
`status` is one of the `JobStatus` enum strings, `applicationsCount` is the
`stats.applicationsCount` counter (mongoose `$inc` can drive it negative,
hence `Int`). -/
structure Job where
  id : Nat
  clientId : Nat
  status : String
  applicationsCount : Int
deriving DecidableEq

/-- Application document; `status` is one of the `ApplicationStatus` enum
strings `pending` / `accepted` / `rejected` / `withdrawn`. -/
structure Application where
  id : Nat
  jobId : Nat
  freelancerId : Nat
  status : String
  appliedAt : Int
  respondedAt : Option Int
deriving DecidableEq

/-- Errors thrown by the services (errorHandler middleware classes):
`NotFoundError`, `ForbiddenError`, `UnauthorizedError`, and the generic
`AppError(statusCode, code)`. -/
inductive SvcError where
  | notFound
  | forbidden
  | unauthorized
  | appError (statusCode : Nat) (code : String)
deriving DecidableEq

/-- Document-store state touched by `ApplicationService`. -/
structure AppDB where
  jobs : List Job
  applications : List Application
deriving DecidableEq

/-- Embeds `Job.findById`. -/
def findJob (db : AppDB) (jobId : Nat) : Option Job :=
  db.jobs.find? (fun j => j.id == jobId)

/-- Embeds `Application.findById`. -/
def findApplication (db : AppDB) (applicationId : Nat) : Option Application :=
  db.applications.find? (fun a => a.id == applicationId)

/-- Embeds `Application.findOne` on the (jobId, freelancerId) pair. -/
def findApplicationByPair (db : AppDB) (jobId freelancerId : Nat) : Option Application :=
  db.applications.find? (fun a => a.jobId == jobId && a.freelancerId == freelancerId)

/-- Embeds the mongoose counter update `Job.findByIdAndUpdate` with `$inc` of `stats.applicationsCount` by `delta`. -/
def incApplicationsCount (db : AppDB) (jobId : Nat) (delta : Int) : AppDB :=
  { db with jobs := db.jobs.map (fun j =>
      if j.id == jobId then { j with applicationsCount := j.applicationsCount + delta } else j) }

/-! ### ApplicationService -/

/-- Embeds `ApplicationService.createApplication`. -/
def createApplication (db : AppDB) (freelancerId : Nat) (jobId : Nat)
    (newId : Nat) (now : Int) : Except SvcError AppDB :=
  match findJob db jobId with
  | none => Except.error SvcError.notFound
  | some job =>
      if job.status ≠ "open" then
        Except.error (SvcError.appError 400 "JOB_NOT_OPEN")
      else if job.clientId == freelancerId then
        Except.error (SvcError.appError 400 "CANNOT_APPLY_OWN_JOB")
      else
        match findApplicationByPair db jobId freelancerId with
        | some _ => Except.error (SvcError.appError 409 "ALREADY_APPLIED")
        | none =>
            let newApp : Application :=
              { id := newId, jobId := jobId, freelancerId := freelancerId,
                status := "pending", appliedAt := now, respondedAt := none }
            Except.ok (incApplicationsCount
              { db with applications := db.applications ++ [newApp] } jobId 1)

/-- Embeds `ApplicationService.acceptApplication`: after the ownership / job-open /
pending checks, the target application is saved as `accepted` with
`respondedAt`, and `Application.updateMany` rejects every other still-pending
application of the same job, also setting `respondedAt`. -/
def acceptApplication (db : AppDB) (applicationId userId : Nat) (now : Int) :
    Except SvcError AppDB :=
  match findApplication db applicationId with
  | none => Except.error SvcError.notFound
  | some application =>
      match findJob db application.jobId with
      | none => Except.error SvcError.notFound
      | some job =>
          if job.clientId ≠ userId then
            Except.error SvcError.forbidden
          else if job.status ≠ "open" then
            Except.error (SvcError.appError 400 "JOB_NOT_OPEN")
          else if application.status ≠ "pending" then
            Except.error (SvcError.appError 400 "APPLICATION_NOT_PENDING")
          else
            Except.ok { db with applications := db.applications.map (fun a =>
              if a.id == applicationId then
                { a with status := "accepted", respondedAt := some now }
              else if a.jobId == application.jobId && a.status == "pending" then
                { a with status := "rejected", respondedAt := some now }
              else a) }

/-- Embeds `ApplicationService.withdrawApplication`: freelancer-only, pending-only;
marks the application `withdrawn` and decrements the job's counter. -/
def withdrawApplication (db : AppDB) (applicationId userId : Nat) :
    Except SvcError AppDB :=
  match findApplication db applicationId with
  | none => Except.error SvcError.notFound
  | some application =>
      if application.freelancerId ≠ userId then
        Except.error SvcError.forbidden
      else if application.status ≠ "pending" then
        Except.error (SvcError.appError 400 "CANNOT_WITHDRAW_APPLICATION")
      else
        let db1 : AppDB := { db with applications := db.applications.map (fun a =>
          if a.id == applicationId then { a with status := "withdrawn" } else a) }
        Except.ok (incApplicationsCount db1 application.jobId (-1))

/-- Embeds `ApplicationService.deleteApplication`: only existence and freelancer
ownership are checked (no status check); deletes the document and decrements
the job's counter. -/
def deleteApplication (db : AppDB) (applicationId userId : Nat) :
    Except SvcError AppDB :=
  match findApplication db applicationId with
  | none => Except.error SvcError.notFound
  | some application =>
      if application.freelancerId ≠ userId then
        Except.error SvcError.forbidden
      else
        let db1 : AppDB :=
          { db with applications := db.applications.filter (fun a => a.id != applicationId) }
        Except.ok (incApplicationsCount db1 application.jobId (-1))

/-! ### System state: auth, jobs and the activity-event ledger -/

/-- The slice of a User document used by `AuthService.login` and
`JobService.createJob`. The bcrypt `comparePassword` check is abstracted as
equality with the stored credential. -/
structure AuthUser where
  id : Nat
  email : String
  password : String
  accountStatus : String
  refreshTokens : List String
  lastLoginAt : Option Int
  jobsPosted : Nat
deriving DecidableEq

/-- Whole-system state: users, the job/application store, and the
append-only ActivityEvent ledger. -/
structure System where
  users : List AuthUser
  db : AppDB
  ledger : List ActivityEvent
deriving DecidableEq

/-- Embeds `AuthService.login`: credential and account-status checks, then pushes
the new refresh token and sets `lastLoginAt`. The source contains no call to
`GamificationService.recordActivity` and no `ActivityEvent.create`. -/
def login (s : System) (email password newRefreshToken : String) (now : Int) :
    Except SvcError System :=
  match s.users.find? (fun u => u.email == email) with
  | none => Except.error SvcError.unauthorized
  | some user =>
      if user.password ≠ password then
        Except.error SvcError.unauthorized
      else if user.accountStatus == "suspended" then
        Except.error SvcError.unauthorized
      else if user.accountStatus == "deleted" then
        Except.error SvcError.unauthorized
      else
        Except.ok { s with users := s.users.map (fun u =>
          if u.id == user.id then
            { u with refreshTokens := u.refreshTokens ++ [newRefreshToken],
                     lastLoginAt := some now }
          else u) }

/-- Embeds `JobService.createJob`: creates the job in `draft` status and increments
the client's `stats.jobsPosted`. The source contains no call to
`GamificationService.recordActivity` and no `ActivityEvent.create`. -/
def createJob (s : System) (clientId newJobId : Nat) : System :=
  let job : Job :=
    { id := newJobId, clientId := clientId, status := "draft", applicationsCount := 0 }
  { s with
    db := { s.db with jobs := s.db.jobs ++ [job] },
    users := s.users.map (fun u =>
      if u.id == clientId then { u with jobsPosted := u.jobsPosted + 1 } else u) }

/-- Embeds `ApplicationService.acceptApplication` lifted to the system state: it
only touches the application store; the ledger is not an input of the
service. -/
def acceptApplicationSys (s : System) (applicationId userId : Nat) (now : Int) :
    Except SvcError System :=
  match acceptApplication s.db applicationId userId now with
  | Except.error e => Except.error e
  | Except.ok db1 => Except.ok { s with db := db1 }

/-! ### Concrete sample states used by witnesses and counterexamples -/

/-- A user with the User-schema gamification defaults:
streaks 0, no `lastActivityDate`, 0 points, level 1, no achievements. -/
def freshUser : UserState := ⟨⟨0, 0, none, 0, 1, []⟩, ⟨0⟩⟩

/-- A user three days into a streak, last active at epoch 0. -/
def c1SampleUser : UserState := ⟨⟨3, 3, some 0, 10, 1, []⟩, ⟨0⟩⟩

/-- A state satisfying `longestStreak ≥ currentStreak` (0 ≥ 0) whose
`lastActivityDate` is set. -/
def c2SampleUser : UserState := ⟨⟨0, 0, some 0, 0, 1, []⟩, ⟨0⟩⟩

/-- Catalog iterating a `total_points` achievement (id 2, target 100,
bonus 10) before a `streak_days` achievement (id 1, target 1, bonus 100). -/
def c5Catalog : List Achievement := [⟨2, ⟨"total_points", 100⟩, 10⟩, ⟨1, ⟨"streak_days", 1⟩, 100⟩]

/-- A user with streak 1 and 50 points, owning no achievements. -/
def c5User : UserState := ⟨⟨1, 1, some 0, 50, 1, []⟩, ⟨0⟩⟩

/-- A `streak_days` achievement (id 1, target 1) worth 100 bonus points. -/
def c6A : Achievement := ⟨1, ⟨"streak_days", 1⟩, 100⟩

/-- A `total_points` achievement (id 2, target 100) worth 10 bonus points. -/
def c6B : Achievement := ⟨2, ⟨"total_points", 100⟩, 10⟩

/-- A user with 95 points whose stored level 1 is still consistent. -/
def c7User : UserState := ⟨⟨1, 1, some 0, 95, 1, []⟩, ⟨0⟩⟩

/-- One open job (id 1, client 7) with two pending applications (ids 1, 2)
and one already-rejected application (id 3). -/
def c3Db : AppDB :=
  ⟨[⟨1, 7, "open", 3⟩],
   [⟨1, 1, 2, "pending", 0, none⟩, ⟨2, 1, 3, "pending", 0, none⟩,
    ⟨3, 1, 4, "rejected", 0, some 0⟩]⟩

/-- A job that is no longer open (`in_progress`) with an existing withdrawn
application by freelancer 2. -/
def c4Db : AppDB := ⟨[⟨1, 7, "in_progress", 0⟩], [⟨1, 1, 2, "withdrawn", 0, none⟩]⟩

/-- An open job with an existing pending application by freelancer 2. -/
def c4DbOpen : AppDB := ⟨[⟨1, 7, "open", 1⟩], [⟨1, 1, 2, "pending", 0, none⟩]⟩

/-- System with an active user (id 1), a client (id 7), an open job with one
pending application, and an empty activity ledger. -/
def c9System : System :=
  ⟨[⟨1, "a@example.com", "secret", "active", [], none, 0⟩,
    ⟨7, "c@example.com", "pw", "active", [], none, 0⟩],
   ⟨[⟨1, 7, "open", 1⟩], [⟨1, 1, 2, "pending", 0, none⟩]⟩,
   []⟩

/-- An open job whose counter is 1, with the single pending application
(id 1, freelancer 2) it counts. -/
def c10Db : AppDB := ⟨[⟨1, 7, "open", 1⟩], [⟨1, 1, 2, "pending", 0, none⟩]⟩

/-- Bonus points of the catalog entries whose id lies in `ids`, counted in
catalog order. -/
def bonusSum : List Achievement → List Nat → Nat
  | [], _ => 0
  | a :: cat, ids => (if a.id ∈ ids then a.points else 0) + bonusSum cat ids

/-! ### Helper lemmas about the gamification engine -/

theorem getDaysDifference_def (date1 date2 : Int) :
    getDaysDifference date1 date2 = (date2 - date1).natAbs / 86400000 := rfl

theorem ifGt_eq_max (l c : Nat) : (if c > l then c else l) = max l c := by
  by_cases h : c > l
  · simp [h, Nat.max_eq_right (Nat.le_of_lt h)]
  · simp [h, Nat.max_eq_left (Nat.le_of_not_lt h)]

theorem updateStreak_first (g : Gamification) (now : Int)
    (h : g.lastActivityDate = none) :
    updateStreak g now =
      { g with currentStreak := 1, longestStreak := 1, lastActivityDate := some now } := by
  unfold updateStreak
  rw [h]

theorem updateStreak_sameDay (g : Gamification) (now lastActivity : Int)
    (h : g.lastActivityDate = some lastActivity)
    (h0 : getDaysDifference lastActivity now = 0) :
    updateStreak g now = g := by
  unfold updateStreak
  rw [h]
  simp [h0]

theorem updateStreak_nextDay (g : Gamification) (now lastActivity : Int)
    (h : g.lastActivityDate = some lastActivity)
    (h1 : getDaysDifference lastActivity now = 1) :
    updateStreak g now =
      { g with
          currentStreak := g.currentStreak + 1,
          longestStreak := max g.longestStreak (g.currentStreak + 1),
          lastActivityDate := some now } := by
  unfold updateStreak
  rw [h]
  simp [h1, ifGt_eq_max]

theorem updateStreak_reset (g : Gamification) (now lastActivity : Int)
    (h : g.lastActivityDate = some lastActivity)
    (h2 : 2 ≤ getDaysDifference lastActivity now) :
    updateStreak g now = { g with currentStreak := 1, lastActivityDate := some now } := by
  unfold updateStreak
  rw [h]
  have h0 : ¬ getDaysDifference lastActivity now = 0 := by omega
  have h1 : ¬ getDaysDifference lastActivity now = 1 := by omega
  simp [h0, h1]

theorem updateStreak_level (g : Gamification) (now : Int) :
    (updateStreak g now).level = g.level := by
  unfold updateStreak
  split
  · rfl
  · dsimp only
    split
    · rfl
    · split <;> rfl

theorem checkAchievementsStep_preserves (u : UserState) (a : Achievement) :
    (checkAchievementsStep u a).gamification.currentStreak = u.gamification.currentStreak ∧
    (checkAchievementsStep u a).gamification.longestStreak = u.gamification.longestStreak ∧
    (checkAchievementsStep u a).gamification.lastActivityDate = u.gamification.lastActivityDate ∧
    (checkAchievementsStep u a).gamification.level = u.gamification.level ∧
    (checkAchievementsStep u a).stats = u.stats := by
  unfold checkAchievementsStep
  split
  · exact ⟨rfl, rfl, rfl, rfl, rfl⟩
  · split
    · exact ⟨rfl, rfl, rfl, rfl, rfl⟩
    · exact ⟨rfl, rfl, rfl, rfl, rfl⟩

theorem checkAchievements_preserves (cat : List Achievement) (u : UserState) :
    (checkAchievements cat u).gamification.currentStreak = u.gamification.currentStreak ∧
    (checkAchievements cat u).gamification.longestStreak = u.gamification.longestStreak ∧
    (checkAchievements cat u).gamification.lastActivityDate = u.gamification.lastActivityDate ∧
    (checkAchievements cat u).gamification.level = u.gamification.level ∧
    (checkAchievements cat u).stats = u.stats := by
  induction cat generalizing u with
  | nil => exact ⟨rfl, rfl, rfl, rfl, rfl⟩
  | cons a cat ih =>
    have h1 := checkAchievementsStep_preserves u a
    have h2 := ih (checkAchievementsStep u a)
    simp only [checkAchievements, List.foldl_cons] at h2 ⊢
    exact ⟨h2.1.trans h1.1, h2.2.1.trans h1.2.1, h2.2.2.1.trans h1.2.2.1,
      h2.2.2.2.1.trans h1.2.2.2.1, h2.2.2.2.2.trans h1.2.2.2.2⟩

theorem recordActivity_eq (cat : List Achievement) (u : UserState)
    (ledger : List ActivityEvent) (uid : Nat) (t : String) (now : Int)
    (ht : t ∈ activityTypeValues) :
    recordActivity cat u ledger uid t now =
      Except.ok (checkAchievements cat (streakApplied (pointsApplied u (getPointsForActivity t)) now),
        ledger ++ [⟨uid, t, getPointsForActivity t, now⟩]) := by
  simp [recordActivity, activityEventTypeValid, ht, pointsApplied, streakApplied]

theorem recordActivity_invalid (cat : List Achievement) (u : UserState)
    (ledger : List ActivityEvent) (uid : Nat) (t : String) (now : Int)
    (ht : t ∉ activityTypeValues) :
    recordActivity cat u ledger uid t now = Except.error "ValidationError" := by
  simp [recordActivity, activityEventTypeValid, ht]

theorem recordActivity_ok_inv {cat : List Achievement} {u : UserState}
    {ledger : List ActivityEvent} {uid : Nat} {t : String} {now : Int}
    {u' : UserState} {ledger' : List ActivityEvent}
    (h : recordActivity cat u ledger uid t now = Except.ok (u', ledger')) :
    u' = checkAchievements cat (streakApplied (pointsApplied u (getPointsForActivity t)) now) := by
  by_cases ht : t ∈ activityTypeValues
  · rw [recordActivity_eq cat u ledger uid t now ht] at h
    simp only [Except.ok.injEq, Prod.mk.injEq] at h
    exact h.1.symm
  · rw [recordActivity_invalid cat u ledger uid t now ht] at h
    exact absurd h (by simp)

/-! ### C1 -/

/-- C1: on every successful `recordActivity`, the streak update follows the
spec's case analysis: no `lastActivityDate` gives the triple (1, 1, now);
otherwise, with `daysSince = floor(|now - lastActivityDate| / 86400000)`
(elapsed-time truncation), `daysSince = 0` leaves all three streak fields
unchanged, `daysSince = 1` increments `currentStreak`, raises
`longestStreak` to `max longestStreak (currentStreak + 1)` and advances
`lastActivityDate`, and `daysSince ≥ 2` resets `currentStreak` to 1,
leaves `longestStreak` unchanged and advances `lastActivityDate`. -/
theorem c1_recordActivity_streak_case_analysis
    (activeAchievements : List Achievement) (user : UserState)
    (ledger : List ActivityEvent) (userId : Nat) (type : String) (now : Int)
    (user' : UserState) (ledger' : List ActivityEvent)
    (h : recordActivity activeAchievements user ledger userId type now =
      Except.ok (user', ledger')) :
    (user.gamification.lastActivityDate = none →
      user'.gamification.currentStreak = 1 ∧
      user'.gamification.longestStreak = 1 ∧
      user'.gamification.lastActivityDate = some now) ∧
    (∀ lastActivity : Int, user.gamification.lastActivityDate = some lastActivity →
      ((now - lastActivity).natAbs / 86400000 = 0 →
        user'.gamification.currentStreak = user.gamification.currentStreak ∧
        user'.gamification.longestStreak = user.gamification.longestStreak ∧
        user'.gamification.lastActivityDate = user.gamification.lastActivityDate) ∧
      ((now - lastActivity).natAbs / 86400000 = 1 →
        user'.gamification.currentStreak = user.gamification.currentStreak + 1 ∧
        user'.gamification.longestStreak =
          max user.gamification.longestStreak (user.gamification.currentStreak + 1) ∧
        user'.gamification.lastActivityDate = some now) ∧
      (2 ≤ (now - lastActivity).natAbs / 86400000 →
        user'.gamification.currentStreak = 1 ∧
        user'.gamification.longestStreak = user.gamification.longestStreak ∧
        user'.gamification.lastActivityDate = some now)) := by
  have hu := recordActivity_ok_inv h
  subst hu
  have hp := checkAchievements_preserves activeAchievements
    (streakApplied (pointsApplied user (getPointsForActivity type)) now)
  constructor
  · intro hnone
    have hg : (pointsApplied user (getPointsForActivity type)).gamification.lastActivityDate
        = none := hnone
    have hs := updateStreak_first
      (pointsApplied user (getPointsForActivity type)).gamification now hg
    refine ⟨?_, ?_, ?_⟩
    · rw [hp.1]; simp only [streakApplied]; rw [hs]; try rfl
    · rw [hp.2.1]; simp only [streakApplied]; rw [hs]; try rfl
    · rw [hp.2.2.1]; simp only [streakApplied]; rw [hs]; try rfl
  · intro lastActivity hlast
    have hg : (pointsApplied user (getPointsForActivity type)).gamification.lastActivityDate
        = some lastActivity := hlast
    refine ⟨?_, ?_, ?_⟩
    · intro h0
      have h0' : getDaysDifference lastActivity now = 0 := by
        rw [getDaysDifference_def]; exact h0
      have hs := updateStreak_sameDay
        (pointsApplied user (getPointsForActivity type)).gamification now lastActivity hg h0'
      refine ⟨?_, ?_, ?_⟩
      · rw [hp.1]; simp only [streakApplied]; rw [hs]; try rfl
      · rw [hp.2.1]; simp only [streakApplied]; rw [hs]; try rfl
      · rw [hp.2.2.1]; simp only [streakApplied]; rw [hs]; try rfl
    · intro h1
      have h1' : getDaysDifference lastActivity now = 1 := by
        rw [getDaysDifference_def]; exact h1
      have hs := updateStreak_nextDay
        (pointsApplied user (getPointsForActivity type)).gamification now lastActivity hg h1'
      refine ⟨?_, ?_, ?_⟩
      · rw [hp.1]; simp only [streakApplied]; rw [hs]; try rfl
      · rw [hp.2.1]; simp only [streakApplied]; rw [hs]; try rfl
      · rw [hp.2.2.1]; simp only [streakApplied]; rw [hs]; try rfl
    · intro h2
      have h2' : 2 ≤ getDaysDifference lastActivity now := by
        rw [getDaysDifference_def]; exact h2
      have hs := updateStreak_reset
        (pointsApplied user (getPointsForActivity type)).gamification now lastActivity hg h2'
      refine ⟨?_, ?_, ?_⟩
      · rw [hp.1]; simp only [streakApplied]; rw [hs]; try rfl
      · rw [hp.2.1]; simp only [streakApplied]; rw [hs]; try rfl
      · rw [hp.2.2.1]; simp only [streakApplied]; rw [hs]; try rfl

/-- C1 witness: the user three days into a streak who is active again exactly
one elapsed day later moves to streak 4, longest streak 4, with
`lastActivityDate` advanced. -/
theorem c1_recordActivity_streak_case_analysis_witness :
    (⟨⟨4, 4, some 86400000, 15, 1, []⟩, ⟨0⟩⟩ : UserState).gamification.currentStreak
      = c1SampleUser.gamification.currentStreak + 1 ∧
    (⟨⟨4, 4, some 86400000, 15, 1, []⟩, ⟨0⟩⟩ : UserState).gamification.longestStreak
      = max c1SampleUser.gamification.longestStreak
          (c1SampleUser.gamification.currentStreak + 1) ∧
    (⟨⟨4, 4, some 86400000, 15, 1, []⟩, ⟨0⟩⟩ : UserState).gamification.lastActivityDate
      = some 86400000 :=
  ((c1_recordActivity_streak_case_analysis [] c1SampleUser [] 1 "login" 86400000
      ⟨⟨4, 4, some 86400000, 15, 1, []⟩, ⟨0⟩⟩ [⟨1, "login", 5, 86400000⟩]
      rfl).2 0 rfl).2.1 rfl

theorem checkAchievementsStep_points_mono (u : UserState) (a : Achievement) :
    u.gamification.totalPoints ≤ (checkAchievementsStep u a).gamification.totalPoints := by
  unfold checkAchievementsStep
  split
  · exact Nat.le_refl _
  · split
    · exact Nat.le_add_right _ _
    · exact Nat.le_refl _

theorem checkAchievements_points_mono (cat : List Achievement) (u : UserState) :
    u.gamification.totalPoints ≤ (checkAchievements cat u).gamification.totalPoints := by
  induction cat generalizing u with
  | nil => exact Nat.le_refl _
  | cons a cat ih =>
    have h1 := checkAchievementsStep_points_mono u a
    have h2 := ih (checkAchievementsStep u a)
    simp only [checkAchievements, List.foldl_cons] at h2 ⊢
    exact le_trans h1 h2

theorem checkAchievementsStep_mem_mono (u : UserState) (a : Achievement) {x : Nat}
    (hx : x ∈ u.gamification.achievements) :
    x ∈ (checkAchievementsStep u a).gamification.achievements := by
  unfold checkAchievementsStep
  split
  · exact hx
  · split
    · exact List.mem_append_left _ hx
    · exact hx

theorem checkAchievements_mem_mono (cat : List Achievement) (u : UserState) {x : Nat}
    (hx : x ∈ u.gamification.achievements) :
    x ∈ (checkAchievements cat u).gamification.achievements := by
  induction cat generalizing u with
  | nil => exact hx
  | cons a cat ih =>
    have h2 := ih (checkAchievementsStep u a) (checkAchievementsStep_mem_mono u a hx)
    simp only [checkAchievements, List.foldl_cons] at h2 ⊢
    exact h2

theorem checkAchievementsStep_mem_src (u : UserState) (a : Achievement) {x : Nat}
    (hx : x ∈ (checkAchievementsStep u a).gamification.achievements) :
    x ∈ u.gamification.achievements ∨ x = a.id := by
  unfold checkAchievementsStep at hx
  split at hx
  · exact Or.inl hx
  · split at hx
    · rcases List.mem_append.1 hx with h | h
      · exact Or.inl h
      · exact Or.inr (List.mem_singleton.1 h)
    · exact Or.inl hx

theorem checkAchievements_mem_src (cat : List Achievement) (u : UserState) {x : Nat}
    (hx : x ∈ (checkAchievements cat u).gamification.achievements) :
    x ∈ u.gamification.achievements ∨ x ∈ cat.map Achievement.id := by
  induction cat generalizing u with
  | nil => exact Or.inl hx
  | cons a cat ih =>
    simp only [checkAchievements, List.foldl_cons] at hx
    rcases ih (checkAchievementsStep u a) hx with h | h
    · rcases checkAchievementsStep_mem_src u a h with h' | h'
      · exact Or.inl h'
      · exact Or.inr (by rw [List.map_cons, h']; exact List.mem_cons_self _ _)
    · exact Or.inr (by rw [List.map_cons]; exact List.mem_cons_of_mem _ h)

theorem bonusSum_cons_notin (cat : List Achievement) (x : Nat) (ids : List Nat)
    (hx : x ∉ cat.map Achievement.id) :
    bonusSum cat (x :: ids) = bonusSum cat ids := by
  induction cat with
  | nil => rfl
  | cons a cat ih =>
    rw [List.map_cons] at hx
    have hxa : ¬ a.id = x := fun he => hx (he ▸ List.mem_cons_self _ _)
    have hx' : x ∉ cat.map Achievement.id := fun hm => hx (List.mem_cons_of_mem _ hm)
    simp only [bonusSum, List.mem_cons, ih hx']
    congr 1
    by_cases hmem : a.id ∈ ids
    · rw [if_pos (Or.inr hmem), if_pos hmem]
    · rw [if_neg ?_, if_neg hmem]
      rintro (h | h)
      · exact hxa h
      · exact hmem h

theorem bonusSum_append_disjoint (cat : List Achievement) (ids1 ids2 : List Nat)
    (hdisj : List.Disjoint ids1 ids2) :
    bonusSum cat (ids1 ++ ids2) = bonusSum cat ids1 + bonusSum cat ids2 := by
  induction cat with
  | nil => rfl
  | cons a cat ih =>
    simp only [bonusSum, ih]
    by_cases h1 : a.id ∈ ids1
    · rw [if_pos (List.mem_append_left _ h1), if_pos h1, if_neg (hdisj h1)]
      omega
    · by_cases h2 : a.id ∈ ids2
      · rw [if_pos (List.mem_append_right _ h2), if_neg h1, if_pos h2]
        omega
      · rw [if_neg ?_, if_neg h1, if_neg h2]
        · omega
        · intro hm
          rcases List.mem_append.1 hm with h | h
          · exact h1 h
          · exact h2 h

theorem checkAchievements_pass_spec (cat : List Achievement)
    (hcat : (cat.map Achievement.id).Nodup) :
    ∀ u : UserState, u.gamification.achievements.Nodup →
      ∃ newIds : List Nat,
        (checkAchievements cat u).gamification.achievements
          = u.gamification.achievements ++ newIds ∧
        (u.gamification.achievements ++ newIds).Nodup ∧
        (∀ x ∈ newIds, x ∈ cat.map Achievement.id) ∧
        (checkAchievements cat u).gamification.totalPoints
          = u.gamification.totalPoints + bonusSum cat newIds := by
  induction cat with
  | nil =>
    intro u hu
    exact ⟨[], by simp [checkAchievements], by simpa using hu, by simp,
      by simp [checkAchievements, bonusSum]⟩
  | cons a cat ih =>
    intro u hu
    rw [List.map_cons, List.nodup_cons] at hcat
    have haid : a.id ∉ cat.map Achievement.id := hcat.1
    have ih' := ih hcat.2
    by_cases hmem : a.id ∈ u.gamification.achievements
    · have hstep : checkAchievementsStep u a = u := by
        unfold checkAchievementsStep
        rw [if_pos hmem]
      obtain ⟨new, h1, h2, h3, h4⟩ := ih' u hu
      have hnotin : a.id ∉ new := fun hin => haid (h3 a.id hin)
      refine ⟨new, ?_, h2, ?_, ?_⟩
      · show (checkAchievements cat (checkAchievementsStep u a)).gamification.achievements = _
        rw [hstep]
        exact h1
      · intro x hx
        rw [List.map_cons]
        exact List.mem_cons_of_mem _ (h3 x hx)
      · show (checkAchievements cat (checkAchievementsStep u a)).gamification.totalPoints = _
        rw [hstep, h4]
        simp [bonusSum, hnotin]
    · by_cases hmet : achievementMet u a
      · have hstep : checkAchievementsStep u a =
            { u with gamification := { u.gamification with
                achievements := u.gamification.achievements ++ [a.id],
                totalPoints := u.gamification.totalPoints + a.points } } := by
          unfold checkAchievementsStep
          rw [if_neg hmem, if_pos hmet]
        have hu1 : (u.gamification.achievements ++ [a.id]).Nodup :=
          List.Nodup.append hu (List.nodup_singleton _)
            (fun x hx hx2 => hmem ((List.mem_singleton.1 hx2) ▸ hx))
        obtain ⟨new, h1, h2, h3, h4⟩ := ih'
          { u with gamification := { u.gamification with
              achievements := u.gamification.achievements ++ [a.id],
              totalPoints := u.gamification.totalPoints + a.points } } hu1
        have hnotin : a.id ∉ new := fun hin => haid (h3 a.id hin)
        refine ⟨a.id :: new, ?_, ?_, ?_, ?_⟩
        · show (checkAchievements cat (checkAchievementsStep u a)).gamification.achievements = _
          rw [hstep, h1]
          simp
        · have h2' := h2
          simpa using h2'
        · intro x hx
          rw [List.map_cons]
          rcases List.mem_cons.1 hx with h | h
          · exact h ▸ List.mem_cons_self _ _
          · exact List.mem_cons_of_mem _ (h3 x h)
        · show (checkAchievements cat (checkAchievementsStep u a)).gamification.totalPoints = _
          rw [hstep, h4]
          have hb : bonusSum (a :: cat) (a.id :: new) = a.points + bonusSum cat new := by
            simp [bonusSum, bonusSum_cons_notin cat a.id new haid]
          rw [hb]
          show u.gamification.totalPoints + a.points + bonusSum cat new = _
          omega
      · have hstep : checkAchievementsStep u a = u := by
          unfold checkAchievementsStep
          rw [if_neg hmem, if_neg hmet]
        obtain ⟨new, h1, h2, h3, h4⟩ := ih' u hu
        have hnotin : a.id ∉ new := fun hin => haid (h3 a.id hin)
        refine ⟨new, ?_, h2, ?_, ?_⟩
        · show (checkAchievements cat (checkAchievementsStep u a)).gamification.achievements = _
          rw [hstep]
          exact h1
        · intro x hx
          rw [List.map_cons]
          exact List.mem_cons_of_mem _ (h3 x hx)
        · show (checkAchievements cat (checkAchievementsStep u a)).gamification.totalPoints = _
          rw [hstep, h4]
          simp [bonusSum, hnotin]

/-! ### C2 -/

/-- C2 counterexample: the state (currentStreak 0, longestStreak 0,
lastActivityDate set) satisfies `longestStreak ≥ currentStreak`, yet
`recordActivity` two elapsed days later resets `currentStreak` to 1 while
leaving `longestStreak` at 0, violating the invariant. -/
theorem c2_longest_ge_current_counterexample :
    c2SampleUser.gamification.currentStreak ≤ c2SampleUser.gamification.longestStreak ∧
    recordActivity [] c2SampleUser [] 1 "login" 172800000 =
      Except.ok (⟨⟨1, 0, some 172800000, 5, 1, []⟩, ⟨0⟩⟩, [⟨1, "login", 5, 172800000⟩]) ∧
    ¬ ((⟨⟨1, 0, some 172800000, 5, 1, []⟩, ⟨0⟩⟩ : UserState).gamification.currentStreak ≤
        (⟨⟨1, 0, some 172800000, 5, 1, []⟩, ⟨0⟩⟩ : UserState).gamification.longestStreak) :=
  ⟨Nat.le.refl, rfl, by decide⟩

/-- C2 (amended): for every user state satisfying `longestStreak ≥
currentStreak` and, whenever `lastActivityDate` is set, `longestStreak ≥ 1`
(which holds for every state the service itself produces), any successful
`recordActivity` call preserves both conditions; in particular
`longestStreak ≥ currentStreak` still holds afterwards. -/
theorem c2_longest_ge_current_invariant
    (activeAchievements : List Achievement) (user : UserState)
    (ledger : List ActivityEvent) (userId : Nat) (type : String) (now : Int)
    (user' : UserState) (ledger' : List ActivityEvent)
    (h : recordActivity activeAchievements user ledger userId type now =
      Except.ok (user', ledger'))
    (hinv : user.gamification.currentStreak ≤ user.gamification.longestStreak)
    (hpos : user.gamification.lastActivityDate ≠ none → 1 ≤ user.gamification.longestStreak) :
    user'.gamification.currentStreak ≤ user'.gamification.longestStreak ∧
    (user'.gamification.lastActivityDate ≠ none → 1 ≤ user'.gamification.longestStreak) := by
  have hu := recordActivity_ok_inv h
  subst hu
  have hp := checkAchievements_preserves activeAchievements
    (streakApplied (pointsApplied user (getPointsForActivity type)) now)
  rw [hp.1, hp.2.1, hp.2.2.1]
  simp only [streakApplied]
  cases hl : user.gamification.lastActivityDate with
  | none =>
    have hg : (pointsApplied user (getPointsForActivity type)).gamification.lastActivityDate
        = none := hl
    rw [updateStreak_first _ _ hg]
    exact ⟨Nat.le_refl 1, fun _ => Nat.le_refl 1⟩
  | some lastActivity =>
    have hg : (pointsApplied user (getPointsForActivity type)).gamification.lastActivityDate
        = some lastActivity := hl
    have hone : 1 ≤ user.gamification.longestStreak := hpos (by rw [hl]; simp)
    by_cases hd0 : getDaysDifference lastActivity now = 0
    · rw [updateStreak_sameDay _ _ _ hg hd0]
      exact ⟨hinv, fun _ => hone⟩
    · by_cases hd1 : getDaysDifference lastActivity now = 1
      · rw [updateStreak_nextDay _ _ _ hg hd1]
        refine ⟨Nat.le_max_right _ _, fun _ => ?_⟩
        exact le_trans (Nat.succ_le_succ (Nat.zero_le _)) (Nat.le_max_right _ _)
      · have hd2 : 2 ≤ getDaysDifference lastActivity now := by omega
        rw [updateStreak_reset _ _ _ hg hd2]
        exact ⟨hone, fun _ => hone⟩

/-- C2 witness: the amended invariant applied to a fresh user performing a
login at epoch 0. -/
theorem c2_longest_ge_current_invariant_witness :
    (⟨⟨1, 1, some 0, 5, 1, []⟩, ⟨0⟩⟩ : UserState).gamification.currentStreak ≤
      (⟨⟨1, 1, some 0, 5, 1, []⟩, ⟨0⟩⟩ : UserState).gamification.longestStreak ∧
    ((⟨⟨1, 1, some 0, 5, 1, []⟩, ⟨0⟩⟩ : UserState).gamification.lastActivityDate ≠ none →
      1 ≤ (⟨⟨1, 1, some 0, 5, 1, []⟩, ⟨0⟩⟩ : UserState).gamification.longestStreak) :=
  c2_longest_ge_current_invariant [] freshUser [] 1 "login" 0
    ⟨⟨1, 1, some 0, 5, 1, []⟩, ⟨0⟩⟩ [⟨1, "login", 5, 0⟩] rfl
    (Nat.le_refl 0) (fun hne => absurd rfl hne)

/-! ### C7 -/

/-- C7 counterexample: a user with 95 points and stored level 1 (consistent)
performs a `job_completed` activity; `totalPoints` becomes 145 but the stored
`level` field stays 1, while `floor(145/100) + 1 = 2` — the mutation does not
keep the stored level consistent with the formula. -/
theorem c7_level_counterexample :
    c7User.gamification.level = calculateLevel c7User.gamification.totalPoints ∧
    recordActivity [] c7User [] 1 "job_completed" 86400000 =
      Except.ok (⟨⟨2, 2, some 86400000, 145, 1, []⟩, ⟨0⟩⟩,
        [⟨1, "job_completed", 50, 86400000⟩]) ∧
    ¬ ((⟨⟨2, 2, some 86400000, 145, 1, []⟩, ⟨0⟩⟩ : UserState).gamification.level
        = calculateLevel
            (⟨⟨2, 2, some 86400000, 145, 1, []⟩, ⟨0⟩⟩ : UserState).gamification.totalPoints) :=
  ⟨rfl, rfl, by decide⟩

/-- C7 (amended): `recordActivity` never updates the stored `level` field
(so it can desync from `totalPoints`), but the level reported by the
gamification stats read is recomputed and always equals
`floor(totalPoints/100) + 1` for the current `totalPoints`. -/
theorem c7_level_behavior
    (activeAchievements : List Achievement) (user : UserState)
    (ledger : List ActivityEvent) (userId : Nat) (type : String) (now : Int)
    (user' : UserState) (ledger' : List ActivityEvent)
    (h : recordActivity activeAchievements user ledger userId type now =
      Except.ok (user', ledger')) :
    user'.gamification.level = user.gamification.level ∧
    (getUserGamificationStats user').level = user'.gamification.totalPoints / 100 + 1 := by
  have hu := recordActivity_ok_inv h
  subst hu
  have hp := checkAchievements_preserves activeAchievements
    (streakApplied (pointsApplied user (getPointsForActivity type)) now)
  constructor
  · rw [hp.2.2.2.1]
    simp only [streakApplied]
    rw [updateStreak_level]
    rfl
  · rfl

/-- C7 witness: the amended statement at the 95-point user performing
`job_completed`. -/
theorem c7_level_behavior_witness :
    (⟨⟨2, 2, some 86400000, 145, 1, []⟩, ⟨0⟩⟩ : UserState).gamification.level
      = c7User.gamification.level ∧
    (getUserGamificationStats (⟨⟨2, 2, some 86400000, 145, 1, []⟩, ⟨0⟩⟩ : UserState)).level
      = (⟨⟨2, 2, some 86400000, 145, 1, []⟩, ⟨0⟩⟩ : UserState).gamification.totalPoints / 100 + 1 :=
  c7_level_behavior [] c7User [] 1 "job_completed" 86400000
    ⟨⟨2, 2, some 86400000, 145, 1, []⟩, ⟨0⟩⟩ [⟨1, "job_completed", 50, 86400000⟩] rfl

/-! ### C5 -/

/-- C5 counterexample: with the catalog iterating a `total_points(100)`
achievement (id 2, +10) before a `streak_days(1)` achievement (id 1, +100),
a user with 50 points and streak 1 gets `[1]` / 150 points from one pass,
but a second pass with otherwise unchanged stats unlocks achievement 2 as
well (`[1, 2]` / 160 points) — evaluation is not idempotent. -/
theorem c5_idempotence_counterexample :
    (checkAchievements c5Catalog c5User).gamification.achievements = [1] ∧
    (checkAchievements c5Catalog c5User).gamification.totalPoints = 150 ∧
    (checkAchievements c5Catalog
        (checkAchievements c5Catalog c5User)).gamification.achievements = [1, 2] ∧
    (checkAchievements c5Catalog
        (checkAchievements c5Catalog c5User)).gamification.totalPoints = 160 := by
  decide

/-- C5 (amended): an achievement id already in the user's set is never
appended again and its bonus points are never added a second time — across
two consecutive evaluation passes with otherwise unchanged stats, the
achievement list stays duplicate-free and `totalPoints` grows by each newly
unlocked achievement's bonus exactly once; however, the second pass may
unlock additional achievements whose `total_points` criteria were only met
by bonus points granted during the first pass, so the result of two passes
need not equal the result of one. -/
theorem c5_no_duplicate_no_double_count (cat : List Achievement) (u : UserState)
    (hcat : (cat.map Achievement.id).Nodup)
    (hu : u.gamification.achievements.Nodup) :
    ∃ new1 new2 : List Nat,
      (checkAchievements cat u).gamification.achievements
        = u.gamification.achievements ++ new1 ∧
      (checkAchievements cat (checkAchievements cat u)).gamification.achievements
        = (u.gamification.achievements ++ new1) ++ new2 ∧
      ((u.gamification.achievements ++ new1) ++ new2).Nodup ∧
      (checkAchievements cat (checkAchievements cat u)).gamification.totalPoints
        = u.gamification.totalPoints + bonusSum cat (new1 ++ new2) := by
  obtain ⟨new1, h11, h12, h13, h14⟩ := checkAchievements_pass_spec cat hcat u hu
  have hu1 : (checkAchievements cat u).gamification.achievements.Nodup := by
    rw [h11]; exact h12
  obtain ⟨new2, h21, h22, h23, h24⟩ :=
    checkAchievements_pass_spec cat hcat (checkAchievements cat u) hu1
  rw [h11] at h21 h22
  have hdisj : List.Disjoint new1 new2 := by
    intro x hx1 hx2
    rcases List.nodup_append.1 h22 with ⟨_, _, hd⟩
    exact hd (List.mem_append_right _ hx1) hx2
  refine ⟨new1, new2, h11, h21, h22, ?_⟩
  rw [h24, h14, bonusSum_append_disjoint cat new1 new2 hdisj]
  omega

/-- C5 witness: the amended statement applied to the two-achievement catalog
and the 50-point user of the counterexample. -/
theorem c5_no_duplicate_no_double_count_witness :
    ∃ new1 new2 : List Nat,
      (checkAchievements c5Catalog c5User).gamification.achievements
        = c5User.gamification.achievements ++ new1 ∧
      (checkAchievements c5Catalog
          (checkAchievements c5Catalog c5User)).gamification.achievements
        = (c5User.gamification.achievements ++ new1) ++ new2 ∧
      ((c5User.gamification.achievements ++ new1) ++ new2).Nodup ∧
      (checkAchievements c5Catalog
          (checkAchievements c5Catalog c5User)).gamification.totalPoints
        = c5User.gamification.totalPoints + bonusSum c5Catalog (new1 ++ new2) :=
  c5_no_duplicate_no_double_count c5Catalog c5User (by decide) (by decide)

/-! ### C6 -/

/-- C6: in a single evaluation pass, bonus points applied for achievement A
unlocked earlier in the iteration are visible to the `total_points` criteria
check of achievement B iterated later in the same pass: if the points
reached right after A's step are at least B's target, then B is unlocked in
the same call. -/
theorem c6_forward_pass_sees_earlier_bonus
    (pre mid post : List Achievement) (A B : Achievement) (u : UserState)
    (hAnotOwned : A.id ∉ u.gamification.achievements)
    (hAunlocked : A.id ∈ (checkAchievements (pre ++ [A]) u).gamification.achievements)
    (hBtype : B.criteria.type = "total_points")
    (hBnotOwned : B.id ∉ u.gamification.achievements)
    (hBfresh : B.id ∉ ((pre ++ [A]) ++ mid).map Achievement.id)
    (htarget : B.criteria.target
      ≤ (checkAchievements (pre ++ [A]) u).gamification.totalPoints) :
    B.id ∈ (checkAchievements (((pre ++ [A]) ++ mid) ++ (B :: post)) u).gamification.achievements := by
  have hsplit : checkAchievements (((pre ++ [A]) ++ mid) ++ (B :: post)) u
      = checkAchievements (B :: post)
          (checkAchievements mid (checkAchievements (pre ++ [A]) u)) := by
    simp [checkAchievements, List.foldl_append]
  have hBnotM : B.id ∉
      (checkAchievements mid (checkAchievements (pre ++ [A]) u)).gamification.achievements := by
    intro hmem
    rcases checkAchievements_mem_src mid _ hmem with h | h
    · rcases checkAchievements_mem_src (pre ++ [A]) u h with h' | h'
      · exact hBnotOwned h'
      · exact hBfresh (by rw [List.map_append]; exact List.mem_append_left _ h')
    · exact hBfresh (by rw [List.map_append]; exact List.mem_append_right _ h)
  have hpts : B.criteria.target ≤
      (checkAchievements mid (checkAchievements (pre ++ [A]) u)).gamification.totalPoints :=
    le_trans htarget (checkAchievements_points_mono mid _)
  have hmet : achievementMet
      (checkAchievements mid (checkAchievements (pre ++ [A]) u)) B = true := by
    unfold achievementMet
    rw [hBtype]
    simp [hpts]
  have hstepB : B.id ∈ (checkAchievementsStep
      (checkAchievements mid (checkAchievements (pre ++ [A]) u)) B).gamification.achievements := by
    unfold checkAchievementsStep
    rw [if_neg hBnotM, if_pos hmet]
    exact List.mem_append_right _ (List.mem_singleton.2 rfl)
  rw [hsplit]
  simp only [checkAchievements, List.foldl_cons]
  exact checkAchievements_mem_mono post _ hstepB

/-- C6 witness: with the catalog `[A, B]` where A is `streak_days(1)` worth
100 points and B is `total_points(100)`, the 50-point user unlocks A (150
points) and B is unlocked in the same pass. -/
theorem c6_forward_pass_sees_earlier_bonus_witness :
    c6B.id ∈ (checkAchievements ((([] ++ [c6A]) ++ []) ++ (c6B :: [])) c5User).gamification.achievements :=
  c6_forward_pass_sees_earlier_bonus [] [] [] c6A c6B c5User
    (by decide) (by decide) rfl (by decide) (by decide) (by decide)

/-! ### C3 -/

/-- C3: a successful accept (caller is the job's owning client, job open,
target application pending) marks the target application `accepted` with
`respondedAt` set, auto-rejects every other pending application of the same
job setting their `respondedAt`, and leaves applications of that job in
status `accepted`, `rejected` or `withdrawn` unchanged (jobs untouched). -/
theorem c3_accept_rejects_other_pending
    (db : AppDB) (applicationId userId : Nat) (now : Int)
    (A : Application) (J : Job) (db' : AppDB)
    (hnodup : (db.applications.map Application.id).Nodup)
    (hA : findApplication db applicationId = some A)
    (hJ : findJob db A.jobId = some J)
    (hclient : J.clientId = userId)
    (hopen : J.status = "open")
    (hpending : A.status = "pending")
    (hok : acceptApplication db applicationId userId now = Except.ok db') :
    db'.jobs = db.jobs ∧
    ∀ B ∈ db.applications,
      (B.id = applicationId →
        { B with status := "accepted", respondedAt := some now } ∈ db'.applications) ∧
      (B.id ≠ applicationId → B.jobId = A.jobId → B.status = "pending" →
        { B with status := "rejected", respondedAt := some now } ∈ db'.applications) ∧
      ((B.status = "accepted" ∨ B.status = "rejected" ∨ B.status = "withdrawn") →
        B ∈ db'.applications) := by
  unfold acceptApplication at hok
  rw [hA] at hok
  simp only [] at hok
  rw [hJ] at hok
  simp only [] at hok
  rw [if_neg (fun hne => hne hclient), if_neg (fun hne => hne hopen),
    if_neg (fun hne => hne hpending)] at hok
  simp only [Except.ok.injEq] at hok
  subst hok
  have hAmem : A ∈ db.applications := List.mem_of_find?_eq_some hA
  have hAid : A.id = applicationId := by
    have := List.find?_some hA
    simpa using this
  refine ⟨rfl, ?_⟩
  intro B hB
  refine ⟨?_, ?_, ?_⟩
  · intro hBid
    have hf : (fun a => if a.id == applicationId then
          { a with status := "accepted", respondedAt := some now }
        else if a.jobId == A.jobId && a.status == "pending" then
          { a with status := "rejected", respondedAt := some now }
        else a) B = { B with status := "accepted", respondedAt := some now } := by
      simp [hBid]
    exact hf ▸ List.mem_map_of_mem _ hB
  · intro hBne hBjob hBpend
    have hf : (fun a => if a.id == applicationId then
          { a with status := "accepted", respondedAt := some now }
        else if a.jobId == A.jobId && a.status == "pending" then
          { a with status := "rejected", respondedAt := some now }
        else a) B = { B with status := "rejected", respondedAt := some now } := by
      simp [hBne, hBjob, hBpend]
    exact hf ▸ List.mem_map_of_mem _ hB
  · intro hst
    have hBpend : B.status ≠ "pending" := by
      rcases hst with h | h | h <;> simp [h]
    have hBne : B.id ≠ applicationId := by
      intro he
      have hBA : B = A := List.inj_on_of_nodup_map hnodup hB hAmem (by rw [he, hAid])
      exact hBpend (hBA ▸ hpending)
    have hf : (fun a => if a.id == applicationId then
          { a with status := "accepted", respondedAt := some now }
        else if a.jobId == A.jobId && a.status == "pending" then
          { a with status := "rejected", respondedAt := some now }
        else a) B = B := by
      simp [hBne, hBpend]
    exact hf ▸ List.mem_map_of_mem _ hB

/-- C3 witness: accepting application 1 of the open job 1 (client 7) marks
it accepted, rejects the competing pending application 2, and leaves the
already-rejected application 3 untouched. -/
theorem c3_accept_rejects_other_pending_witness :
    (⟨1, 1, 2, "accepted", 0, some 99⟩ : Application) ∈
      [(⟨1, 1, 2, "accepted", 0, some 99⟩ : Application),
       ⟨2, 1, 3, "rejected", 0, some 99⟩, ⟨3, 1, 4, "rejected", 0, some 0⟩] ∧
    (⟨2, 1, 3, "rejected", 0, some 99⟩ : Application) ∈
      [(⟨1, 1, 2, "accepted", 0, some 99⟩ : Application),
       ⟨2, 1, 3, "rejected", 0, some 99⟩, ⟨3, 1, 4, "rejected", 0, some 0⟩] ∧
    (⟨3, 1, 4, "rejected", 0, some 0⟩ : Application) ∈
      [(⟨1, 1, 2, "accepted", 0, some 99⟩ : Application),
       ⟨2, 1, 3, "rejected", 0, some 99⟩, ⟨3, 1, 4, "rejected", 0, some 0⟩] :=
  ⟨((c3_accept_rejects_other_pending c3Db 1 7 99 ⟨1, 1, 2, "pending", 0, none⟩
      ⟨1, 7, "open", 3⟩
      ⟨[⟨1, 7, "open", 3⟩],
       [⟨1, 1, 2, "accepted", 0, some 99⟩, ⟨2, 1, 3, "rejected", 0, some 99⟩,
        ⟨3, 1, 4, "rejected", 0, some 0⟩]⟩
      (by decide) rfl rfl rfl rfl rfl rfl).2
      ⟨1, 1, 2, "pending", 0, none⟩ (by decide)).1 rfl,
   ((c3_accept_rejects_other_pending c3Db 1 7 99 ⟨1, 1, 2, "pending", 0, none⟩
      ⟨1, 7, "open", 3⟩
      ⟨[⟨1, 7, "open", 3⟩],
       [⟨1, 1, 2, "accepted", 0, some 99⟩, ⟨2, 1, 3, "rejected", 0, some 99⟩,
        ⟨3, 1, 4, "rejected", 0, some 0⟩]⟩
      (by decide) rfl rfl rfl rfl rfl rfl).2
      ⟨2, 1, 3, "pending", 0, none⟩ (by decide)).2.1 (by decide) rfl rfl,
   ((c3_accept_rejects_other_pending c3Db 1 7 99 ⟨1, 1, 2, "pending", 0, none⟩
      ⟨1, 7, "open", 3⟩
      ⟨[⟨1, 7, "open", 3⟩],
       [⟨1, 1, 2, "accepted", 0, some 99⟩, ⟨2, 1, 3, "rejected", 0, some 99⟩,
        ⟨3, 1, 4, "rejected", 0, some 0⟩]⟩
      (by decide) rfl rfl rfl rfl rfl rfl).2
      ⟨3, 1, 4, "rejected", 0, some 0⟩ (by decide)).2.2 (Or.inr (Or.inl rfl))⟩

/-! ### C4 -/

/-- C4 counterexample: an application for the pair (job 1, freelancer 2)
already exists (status `withdrawn`) but the job is `in_progress`, so the
second `createApplication` attempt fails with `JOB_NOT_OPEN` (HTTP 400),
not with the Conflict error (HTTP 409). -/
theorem c4_conflict_counterexample :
    (findApplicationByPair c4Db 1 2).isSome = true ∧
    createApplication c4Db 2 1 99 0 = Except.error (SvcError.appError 400 "JOB_NOT_OPEN") ∧
    SvcError.appError 400 "JOB_NOT_OPEN" ≠ SvcError.appError 409 "ALREADY_APPLIED" :=
  ⟨rfl, rfl, by decide⟩

/-- C4 (amended): when an application for the (job, freelancer) pair already
exists, `createApplication` always fails — so the duplicate is never stored
and the job's `applicationsCount` is never incremented — and the failure is
the Conflict error 409 `ALREADY_APPLIED` precisely when the job exists, is
open, and the caller is not the job's owning client; otherwise the earlier
NotFound / `JOB_NOT_OPEN` / `CANNOT_APPLY_OWN_JOB` checks fire first. -/
theorem c4_duplicate_application_conflict
    (db : AppDB) (jobId freelancerId newId : Nat) (now : Int) (A : Application)
    (hdup : findApplicationByPair db jobId freelancerId = some A) :
    (∃ e, createApplication db freelancerId jobId newId now = Except.error e) ∧
    (∀ J, findJob db jobId = some J → J.status = "open" → J.clientId ≠ freelancerId →
      createApplication db freelancerId jobId newId now
        = Except.error (SvcError.appError 409 "ALREADY_APPLIED")) := by
  constructor
  · cases hJ : findJob db jobId with
    | none =>
      refine ⟨SvcError.notFound, ?_⟩
      unfold createApplication
      rw [hJ]
    | some J =>
      by_cases hs : J.status = "open"
      · by_cases hc : J.clientId = freelancerId
        · refine ⟨SvcError.appError 400 "CANNOT_APPLY_OWN_JOB", ?_⟩
          unfold createApplication
          rw [hJ]
          simp only []
          rw [if_neg (fun hne => hne hs), if_pos (by simp [hc])]
        · refine ⟨SvcError.appError 409 "ALREADY_APPLIED", ?_⟩
          unfold createApplication
          rw [hJ]
          simp only []
          rw [if_neg (fun hne => hne hs), if_neg (by simp [hc]), hdup]
      · refine ⟨SvcError.appError 400 "JOB_NOT_OPEN", ?_⟩
        unfold createApplication
        rw [hJ]
        simp only []
        rw [if_pos hs]
  · intro J hJ hopen hcneq
    unfold createApplication
    rw [hJ]
    simp only []
    rw [if_neg (fun hne => hne hopen), if_neg (by simp [hcneq]), hdup]

/-- C4 witness: with the open job 1 (client 7) and the existing pending
application of freelancer 2, a second attempt by freelancer 2 fails with
the Conflict error 409 `ALREADY_APPLIED`. -/
theorem c4_duplicate_application_conflict_witness :
    createApplication c4DbOpen 2 1 99 0
      = Except.error (SvcError.appError 409 "ALREADY_APPLIED") :=
  (c4_duplicate_application_conflict c4DbOpen 1 2 99 0
    ⟨1, 1, 2, "pending", 0, none⟩ rfl).2 ⟨1, 7, "open", 1⟩ rfl rfl (by decide)

/-! ### C10 -/

theorem findJob_incApplicationsCount (db : AppDB) (jobId : Nat) (delta : Int) :
    findJob (incApplicationsCount db jobId delta) jobId
      = Option.map (fun j => { j with applicationsCount := j.applicationsCount + delta })
          (findJob db jobId) := by
  unfold findJob incApplicationsCount
  generalize db.jobs = l
  induction l with
  | nil => rfl
  | cons j l ih =>
    by_cases h : j.id = jobId
    · simp [List.find?, h]
    · simp only [List.map_cons]
      rw [if_neg (by simp [h])]
      simp only [List.find?]
      rw [show ((j.id == jobId) = false) from by simp [h]]
      exact ih

theorem findApplication_withdrawMap (db : AppDB) (applicationId : Nat) :
    findApplication { db with applications := db.applications.map (fun a =>
        if a.id == applicationId then { a with status := "withdrawn" } else a) } applicationId
      = Option.map (fun a => { a with status := "withdrawn" })
          (findApplication db applicationId) := by
  unfold findApplication
  simp only []
  generalize db.applications = l
  induction l with
  | nil => rfl
  | cons a l ih =>
    by_cases h : a.id = applicationId
    · simp [List.find?, h]
    · simp only [List.map_cons]
      rw [if_neg (by simp [h])]
      simp only [List.find?]
      rw [show ((a.id == applicationId) = false) from by simp [h]]
      exact ih

/-- C10: `deleteApplication` checks only existence and freelancer ownership
— it succeeds for an application in any status and unconditionally
decrements the job's `applicationsCount`; consequently, for a pending
application, withdraw followed by delete decrements the counter by 2 in
total although the application was only counted once at creation. -/
theorem c10_delete_double_decrement
    (db : AppDB) (applicationId userId : Nat) (A : Application) (J : Job)
    (hA : findApplication db applicationId = some A)
    (hfree : A.freelancerId = userId)
    (hJ : findJob db A.jobId = some J) :
    (∃ db1, deleteApplication db applicationId userId = Except.ok db1 ∧
      findJob db1 A.jobId
        = some { J with applicationsCount := J.applicationsCount - 1 }) ∧
    (A.status = "pending" →
      ∃ db1 db2, withdrawApplication db applicationId userId = Except.ok db1 ∧
        deleteApplication db1 applicationId userId = Except.ok db2 ∧
        findJob db2 A.jobId
          = some { J with applicationsCount := J.applicationsCount - 2 }) := by
  constructor
  · have hdel1 : deleteApplication db applicationId userId = Except.ok (incApplicationsCount { db with applications := db.applications.filter (fun a => a.id != applicationId) } A.jobId (-1)) := by
      unfold deleteApplication
      rw [hA]
      simp only []
      rw [if_neg (fun hne => hne hfree)]
    refine ⟨_, hdel1, ?_⟩
    rw [findJob_incApplicationsCount]
    have hJ1 : findJob { db with applications := db.applications.filter (fun a => a.id != applicationId) } A.jobId = some J := hJ
    rw [hJ1]
    simp only [Option.map]
    have he1 : J.applicationsCount + (-1) = J.applicationsCount - 1 := by omega
    rw [he1]
  · intro hpend
    have hw : withdrawApplication db applicationId userId = Except.ok (incApplicationsCount { db with applications := db.applications.map (fun a => if a.id == applicationId then { a with status := "withdrawn" } else a) } A.jobId (-1)) := by
      unfold withdrawApplication
      rw [hA]
      simp only []
      rw [if_neg (fun hne => hne hfree), if_neg (fun hne => hne hpend)]
    set db1 := incApplicationsCount { db with applications := db.applications.map (fun a => if a.id == applicationId then { a with status := "withdrawn" } else a) } A.jobId (-1) with hdb1
    have hAw : findApplication db1 applicationId = some { A with status := "withdrawn" } := by
      have h1 : findApplication db1 applicationId = findApplication { db with applications := db.applications.map (fun a => if a.id == applicationId then { a with status := "withdrawn" } else a) } applicationId := rfl
      rw [h1, findApplication_withdrawMap, hA]
      rfl
    have hdel2 : deleteApplication db1 applicationId userId = Except.ok (incApplicationsCount { db1 with applications := db1.applications.filter (fun a => a.id != applicationId) } A.jobId (-1)) := by
      unfold deleteApplication
      rw [hAw]
      simp only []
      rw [if_neg (fun hne => hne hfree)]
    refine ⟨db1, _, hw, hdel2, ?_⟩
    rw [findJob_incApplicationsCount]
    have h2 : findJob { db1 with applications := db1.applications.filter (fun a => a.id != applicationId) } A.jobId = findJob db1 A.jobId := rfl
    rw [h2, hdb1, findJob_incApplicationsCount]
    have hJ1 : findJob { db with applications := db.applications.map (fun a => if a.id == applicationId then { a with status := "withdrawn" } else a) } A.jobId = some J := hJ
    rw [hJ1]
    simp only [Option.map]
    have he2 : J.applicationsCount + (-1) + (-1) = J.applicationsCount - 2 := by omega
    rw [he2]

/-- C10 witness: on the job with counter 1 and its single pending
application, withdraw followed by delete leaves the counter at -1, a net
decrement of 2. -/
theorem c10_delete_double_decrement_witness :
    (∃ db1, deleteApplication c10Db 1 2 = Except.ok db1 ∧
      findJob db1 1 = some ⟨1, 7, "open", 0⟩) ∧
    ((⟨1, 1, 2, "pending", 0, none⟩ : Application).status = "pending" →
      ∃ db1 db2, withdrawApplication c10Db 1 2 = Except.ok db1 ∧
        deleteApplication db1 1 2 = Except.ok db2 ∧
        findJob db2 1 = some ⟨1, 7, "open", -1⟩) :=
  c10_delete_double_decrement c10Db 1 2 ⟨1, 1, 2, "pending", 0, none⟩
    ⟨1, 7, "open", 1⟩ rfl rfl rfl

/-! ### C8 -/

/-- C8 counterexample: the points lookup does yield 0 for the unknown
activity type "wat", but the ActivityEvent schema's enum rejects the event —
`recordActivity` fails with a validation error instead of appending a
0-point event, contradicting "no event is rejected". -/
theorem c8_unknown_type_counterexample :
    getPointsForActivity "wat" = 0 ∧
    recordActivity [] freshUser [] 1 "wat" 0 = Except.error "ValidationError" :=
  ⟨rfl, rfl⟩

/-- C8 (amended): the ledger maps every known activity type to its fixed
point value {login 5, job_posted 10, application_sent 15,
application_accepted 25, job_completed 50, profile_updated 5} and the lookup
yields 0 for any type outside the table; however, the ActivityEvent schema
restricts `type` to the six known values, so an event with an unknown type
is rejected by schema validation rather than appended with 0 points. -/
theorem c8_points_table_unknown_rejected :
    getPointsForActivity "login" = 5 ∧
    getPointsForActivity "job_posted" = 10 ∧
    getPointsForActivity "application_sent" = 15 ∧
    getPointsForActivity "application_accepted" = 25 ∧
    getPointsForActivity "job_completed" = 50 ∧
    getPointsForActivity "profile_updated" = 5 ∧
    (∀ t : String, t ∉ activityTypeValues →
      getPointsForActivity t = 0 ∧
      ∀ (cat : List Achievement) (u : UserState) (ledger : List ActivityEvent)
        (uid : Nat) (now : Int),
        recordActivity cat u ledger uid t now = Except.error "ValidationError") := by
  refine ⟨rfl, rfl, rfl, rfl, rfl, rfl, ?_⟩
  intro t ht
  have ht' : ¬ (t = "login" ∨ t = "job_posted" ∨ t = "application_sent" ∨
      t = "application_accepted" ∨ t = "job_completed" ∨ t = "profile_updated") := by
    simpa [activityTypeValues] using ht
  push_neg at ht'
  obtain ⟨h1, h2, h3, h4, h5, h6⟩ := ht'
  constructor
  · simp [getPointsForActivity, h1, h2, h3, h4, h5, h6]
  · intro cat u ledger uid now
    exact recordActivity_invalid cat u ledger uid t now ht

/-- C8 witness: the amended statement at the unknown type "bogus". -/
theorem c8_points_table_unknown_rejected_witness :
    getPointsForActivity "bogus" = 0 ∧
    recordActivity [] c1SampleUser [] 2 "bogus" 7 = Except.error "ValidationError" :=
  ⟨(c8_points_table_unknown_rejected.2.2.2.2.2.2 "bogus" (by decide)).1,
   (c8_points_table_unknown_rejected.2.2.2.2.2.2 "bogus" (by decide)).2
     [] c1SampleUser [] 2 7⟩

/-! ### C9 -/

/-- C9: evaluating the code at the claim's trigger points — a successful
login of user 1, a job creation by client 7, and a successful acceptance of
the pending application 1 — shows that each operation succeeds while the
activity-event ledger stays empty: none of these operations invokes
`recordActivity` or appends an ActivityEvent, contrary to the spec's
control flow. -/
theorem c9_no_ledger_entry_on_actions :
    (∃ s1, login c9System "a@example.com" "secret" "rt1" 5 = Except.ok s1 ∧
      s1.ledger = []) ∧
    (createJob c9System 7 2).ledger = [] ∧
    (∃ s2, acceptApplicationSys c9System 1 7 5 = Except.ok s2 ∧ s2.ledger = []) :=
  ⟨⟨_, rfl, rfl⟩, rfl, ⟨_, rfl, rfl⟩⟩

end StreakAPI
